import Mathlib

/-!
Verification of `src/epictrack-web/src/components/myTasks/MyTasksList.tsx`
(the "My Tasks" listing screen of EPIC.track).

JavaScript values flowing through the facet-derivation pipeline are modelled
by `JsVal`; `null` and `undefined` are explicit constructors and JS
truthiness is `JsVal.truthy`.  Stateful fragments (the two fetch handlers,
the cached column-filter state) are modelled as explicit state-passing
functions over `ComponentState`.
-/

/-- Model of a JavaScript value as it can appear in the facet-derivation
pipeline of `MyTasksList.tsx`: `null`, `undefined`, a string, or a number. -/
inductive JsVal : Type
  | vnull : JsVal
  | vundef : JsVal
  | vstr : String → JsVal
  | vnum : Int → JsVal
deriving DecidableEq

/-- JS truthiness for `JsVal` (`null`, `undefined`, `""` and `0` are falsy). -/
def JsVal.truthy : JsVal → Bool
  | .vnull => false
  | .vundef => false
  | .vstr s => !(s == "")
  | .vnum n => !(n == 0)

/-- First-occurrence deduplication with an accumulator of already-seen
values: `dedupFirstSeen seen l` drops from `l` every value that occurred in
`seen` or earlier in `l`, keeping the first occurrence of each value in
order.  With `seen = []` this is the behaviour of
`Array.from(new Set(...))` in JS (insertion-order set semantics). -/
def dedupFirstSeen {α : Type} [DecidableEq α] (seen : List α) : List α → List α
  | [] => []
  | x :: xs =>
    if x ∈ seen then dedupFirstSeen seen xs
    else x :: dedupFirstSeen (x :: seen) xs

/-- Spec-side definition of the facet pipeline, following the spec's words:
"removing values already seen earlier in iteration order (first-occurrence
dedup), then discarding falsy results". -/
def specFacetList (l : List JsVal) : List JsVal :=
  (dedupFirstSeen [] l).filter (fun v => v.truthy)

/-- Embedding of the `Array.prototype.filter` call in the `codeTypes` effect
of `MyTasksList.tsx` (lines 150-156): the callback receives
`(ele, index, arr)` and keeps `ele` iff
`arr.findIndex((t) => t === ele) === index && ele`.  Here `arr` is the whole
mapped array and `i` is the index of the head of the remaining list. -/
def jsFirstOccurFilterAux (arr : List JsVal) : Nat → List JsVal → List JsVal
  | _, [] => []
  | i, x :: xs =>
    if (arr.findIdx (fun t => t == x) == i) && x.truthy then
      x :: jsFirstOccurFilterAux arr (i + 1) xs
    else
      jsFirstOccurFilterAux arr (i + 1) xs

/-- Top-level entry of the filter: indices start at 0 and the array passed to
the callback is the array being filtered. -/
def jsFirstOccurFilter (arr : List JsVal) : List JsVal :=
  jsFirstOccurFilterAux arr 0 arr

/-- Embedding of the `codes` computation for one key of the `codeTypes`
effect (lines 144-159): map every task through the per-field accessor
`(w) => (w[key] ? w[key][accessor] : null)` (abstracted here as `f`, with
`accessor = "title"` for the `work` key and `accessor = key` otherwise),
then apply the first-occurrence/truthiness filter. -/
def deriveFacet {α : Type} (f : α → JsVal) (tasks : List α) : List JsVal :=
  jsFirstOccurFilter (tasks.map f)

theorem findIdx_append_not_mem (x : JsVal) (rest : List JsVal) :
    ∀ pre : List JsVal, x ∉ pre →
      (pre ++ x :: rest).findIdx (fun t => t == x) = pre.length := by
  intro pre
  induction pre with
  | nil =>
    intro _
    simp [List.findIdx_cons]
  | cons a pre ih =>
    intro h
    have hax : (a == x) = false := by
      apply beq_eq_false_iff_ne.mpr
      intro hax
      exact h (by simp [hax])
    have hx : x ∉ pre := fun hm => h (List.mem_cons_of_mem a hm)
    simp [List.findIdx_cons, hax, ih hx]

theorem findIdx_append_mem (x : JsVal) (rest : List JsVal) :
    ∀ pre : List JsVal, x ∈ pre →
      (pre ++ x :: rest).findIdx (fun t => t == x) < pre.length := by
  intro pre
  induction pre with
  | nil =>
    intro h
    exact absurd h (List.not_mem_nil x)
  | cons a pre ih =>
    intro h
    by_cases hax : a = x
    · simp [List.findIdx_cons, hax]
    · have hx : x ∈ pre := by
        rcases List.mem_cons.mp h with h1 | h2
        · exact absurd h1.symm hax
        · exact h2
      have hb : (a == x) = false := beq_eq_false_iff_ne.mpr hax
      simp only [List.cons_append, List.findIdx_cons, hb, cond_false, List.length_cons]
      exact Nat.succ_lt_succ (ih hx)

theorem findIdx_cond_eq (x : JsVal) (pre rest : List JsVal) :
    ((pre ++ x :: rest).findIdx (fun t => t == x) == pre.length)
      = decide (x ∉ pre) := by
  by_cases h : x ∈ pre
  · have hlt := findIdx_append_mem x rest pre h
    have hne : (pre ++ x :: rest).findIdx (fun t => t == x) ≠ pre.length :=
      Nat.ne_of_lt hlt
    simp [h, hne]
  · simp [h, findIdx_append_not_mem x rest pre h]

theorem jsFirstOccurFilterAux_eq_dedup :
    ∀ (rest pre seen : List JsVal), (∀ y, y ∈ seen ↔ y ∈ pre) →
      jsFirstOccurFilterAux (pre ++ rest) pre.length rest
        = (dedupFirstSeen seen rest).filter (fun v => v.truthy) := by
  intro rest
  induction rest with
  | nil =>
    intro pre seen _
    simp [jsFirstOccurFilterAux, dedupFirstSeen]
  | cons x xs ih =>
    intro pre seen hinv
    have hsplit : pre ++ x :: xs = (pre ++ [x]) ++ xs := by simp
    have hlen : pre.length + 1 = (pre ++ [x]).length := by simp
    by_cases hx : x ∈ pre
    · have hxseen : x ∈ seen := (hinv x).mpr hx
      have hcond : ((pre ++ x :: xs).findIdx (fun t => t == x) == pre.length) = false := by
        rw [findIdx_cond_eq]
        simp [hx]
      have hinv2 : ∀ y, y ∈ seen ↔ y ∈ pre ++ [x] := by
        intro y
        rw [hinv y]
        simp only [List.mem_append, List.mem_singleton]
        constructor
        · exact fun hy => Or.inl hy
        · rintro (hy | hy)
          · exact hy
          · exact hy ▸ hx
      have hrec : jsFirstOccurFilterAux (pre ++ x :: xs) (pre.length + 1) xs
          = (dedupFirstSeen seen xs).filter (fun v => v.truthy) := by
        rw [hsplit, hlen]
        exact ih (pre ++ [x]) seen hinv2
      simp only [jsFirstOccurFilterAux, hcond, Bool.false_and, Bool.false_eq_true,
        if_false, hrec, dedupFirstSeen, if_pos hxseen]
    · have hxseen : x ∉ seen := fun hs => hx ((hinv x).mp hs)
      have hcond : ((pre ++ x :: xs).findIdx (fun t => t == x) == pre.length) = true := by
        rw [findIdx_cond_eq]
        simp [hx]
      have hinv2 : ∀ y, y ∈ x :: seen ↔ y ∈ pre ++ [x] := by
        intro y
        simp only [List.mem_cons, List.mem_append, List.mem_singleton, hinv y]
        tauto
      have hrec : jsFirstOccurFilterAux (pre ++ x :: xs) (pre.length + 1) xs
          = (dedupFirstSeen (x :: seen) xs).filter (fun v => v.truthy) := by
        rw [hsplit, hlen]
        exact ih (pre ++ [x]) (x :: seen) hinv2
      by_cases ht : x.truthy
      · simp only [jsFirstOccurFilterAux, hcond, ht, Bool.and_self, if_true, hrec,
          dedupFirstSeen, if_neg hxseen, List.filter_cons, ht]
      · simp only [jsFirstOccurFilterAux, hcond, Bool.true_and, ht, Bool.false_eq_true,
          if_false, hrec, dedupFirstSeen, if_neg hxseen, List.filter_cons]

theorem jsFirstOccurFilter_eq_specFacetList (l : List JsVal) :
    jsFirstOccurFilter l = specFacetList l := by
  have h := jsFirstOccurFilterAux_eq_dedup l [] [] (by intro y; simp)
  simpa [jsFirstOccurFilter, specFacetList] using h

theorem mem_dedupFirstSeen {α : Type} [DecidableEq α] :
    ∀ (l seen : List α) (v : α),
      v ∈ dedupFirstSeen seen l ↔ (v ∈ l ∧ v ∉ seen) := by
  intro l
  induction l with
  | nil =>
    intro seen v
    simp [dedupFirstSeen]
  | cons x xs ih =>
    intro seen v
    by_cases hx : x ∈ seen
    · rw [dedupFirstSeen, if_pos hx, ih seen v]
      constructor
      · rintro ⟨h1, h2⟩
        exact ⟨List.mem_cons_of_mem x h1, h2⟩
      · rintro ⟨h1, h2⟩
        rcases List.mem_cons.mp h1 with h1 | h1
        · exact absurd (h1 ▸ hx) h2
        · exact ⟨h1, h2⟩
    · rw [dedupFirstSeen, if_neg hx]
      constructor
      · intro h
        rcases List.mem_cons.mp h with h | h
        · exact ⟨h ▸ List.mem_cons_self x xs, h ▸ hx⟩
        · rcases (ih (x :: seen) v).mp h with ⟨h1, h2⟩
          exact ⟨List.mem_cons_of_mem x h1, fun hs => h2 (List.mem_cons_of_mem x hs)⟩
      · rintro ⟨h1, h2⟩
        rcases List.mem_cons.mp h1 with h1 | h1
        · exact h1 ▸ List.mem_cons_self x _
        · by_cases hvx : v = x
          · exact hvx ▸ List.mem_cons_self x _
          · refine List.mem_cons_of_mem x ((ih (x :: seen) v).mpr ⟨h1, ?_⟩)
            intro hs
            rcases List.mem_cons.mp hs with hs | hs
            · exact hvx hs
            · exact h2 hs

theorem nodup_dedupFirstSeen {α : Type} [DecidableEq α] :
    ∀ (l seen : List α), (dedupFirstSeen seen l).Nodup := by
  intro l
  induction l with
  | nil =>
    intro seen
    simp [dedupFirstSeen]
  | cons x xs ih =>
    intro seen
    by_cases hx : x ∈ seen
    · rw [dedupFirstSeen, if_pos hx]
      exact ih seen
    · rw [dedupFirstSeen, if_neg hx]
      refine List.nodup_cons.mpr ⟨?_, ih (x :: seen)⟩
      intro hmem
      exact ((mem_dedupFirstSeen xs (x :: seen) x).mp hmem).2 (List.mem_cons_self x seen)

/-- C2: for every task list, each auxiliary facet list is recomputed by
mapping each task through that field's accessor `f` and applying
first-occurrence dedup while discarding falsy results; the result equals the
spec-side pipeline `specFacetList` (first-occurrence dedup, then drop falsy
values), and it contains exactly the distinct truthy accessor values of the
task list, without duplicates, in order of first appearance. -/
theorem facet_lists_are_first_occurrence_dedup_of_truthy_values
    {α : Type} (f : α → JsVal) (tasks : List α) :
    deriveFacet f tasks = specFacetList (tasks.map f) ∧
    (deriveFacet f tasks).Nodup ∧
    (∀ v, v ∈ deriveFacet f tasks ↔ (v.truthy = true ∧ v ∈ tasks.map f)) := by
  refine ⟨jsFirstOccurFilter_eq_specFacetList _, ?_, ?_⟩
  · rw [deriveFacet, jsFirstOccurFilter_eq_specFacetList, specFacetList]
    exact (nodup_dedupFirstSeen _ _).filter _
  · intro v
    rw [deriveFacet, jsFirstOccurFilter_eq_specFacetList, specFacetList]
    simp only [List.mem_filter, mem_dedupFirstSeen, List.not_mem_nil,
      not_false_iff, and_true]
    tauto

/-- Model of the blank-option sentinel, spec: the constant `BLANK_OPTION`
exported by `MasterTrackTable/utils` (not under `src/`), "a placeholder value
substituted when a field is absent, so it can still appear as a selectable
filter option". -/
def BLANK_OPTION : String := "(Blanks)"

/-- Model of a (first name, last name) pair, the `assignee` record referenced
by a task's assignee entries. -/
structure Person : Type where
  first_name : String
  last_name : String
deriving DecidableEq

/-- Model of one entry of a task's `assignees` array. -/
structure TaskAssignee : Type where
  assignee : Person
deriving DecidableEq

/-- Model of the `MyTask` record (the `models/task` module is not under
`src/`; fields follow the spec's data model), restricted to the fields the
claims are about.  `assignees` is `none` when the field is
`null`/`undefined` (falsy in JS) and `some l` when it is an array `l` — an
empty array is truthy in JS, so `some []` and `none` behave differently. -/
structure MyTask : Type where
  assignees : Option (List TaskAssignee)
deriving DecidableEq

/-- Rendering of an assignee as a full-name string:
`first_name + " " + last_name`. -/
def fullName (p : Person) : String := p.first_name ++ " " ++ p.last_name

/-- Embedding of `assigneeOptions` (lines 123-134): flatten
`task.assignees || [""]`, map each element `a` to
`a ? first_name + " " + last_name : BLANK_OPTION`, then
`Array.from(new Set(...))` (insertion-order first-occurrence dedup).  The
falsy `""` placeholder produced by the `|| [""]` branch is modelled as
`none`; real assignee objects (always truthy) as `some a`. -/
def assigneeOptions (tasks : List MyTask) : List String :=
  dedupFirstSeen []
    (((tasks.map (fun task =>
        match task.assignees with
        | some l => l.map (fun a => (some a : Option TaskAssignee))
        | none => [(none : Option TaskAssignee)])).flatten).map
      (fun a =>
        match a with
        | some a => fullName a.assignee
        | none => BLANK_OPTION))

/-- Embedding of JS `String.prototype.includes`: `strIncludes s sub` is true
iff `sub` occurs as a contiguous substring of `s`. -/
def strIncludes (s sub : String) : Bool :=
  (List.range (s.data.length + 1)).any (fun i => sub.data.isPrefixOf (s.data.drop i))

/-- Embedding of the accessor of the "assigned" column (lines 261-264):
`row.assignees?.map((p) => first_name + " " + last_name).join(", ")`;
the result is `undefined` (`none`) when `assignees` is `null`/`undefined`. -/
def assignedAccessor (t : MyTask) : Option String :=
  t.assignees.map (fun l => String.intercalate ", " (l.map (fun a => fullName a.assignee)))

/-- Embedding of `row.renderValue(id) || BLANK_OPTION` (line 285): the
rendered assignee string, with the blank-option sentinel substituted when the
rendered value is falsy (`undefined`, or `""` from an empty assignee array). -/
def renderValueOrBlank (rendered : Option String) : String :=
  match rendered with
  | none => BLANK_OPTION
  | some s => if s = "" then BLANK_OPTION else s

/-- Embedding of the `filterFn` of the "assigned" column (lines 277-289):
pass everything when `!filterValue.length` or
`filterValue.length > assigneeOptions.length` (the select-all case);
otherwise require every selected name to occur as a substring of the
rendered assignee string. -/
def assignedFilterFn (assigneeOpts : List String) (rendered : Option String)
    (filterValue : List String) : Bool :=
  if filterValue.length = 0 ∨ filterValue.length > assigneeOpts.length then
    true
  else
    filterValue.all (fun filterName => strIncludes (renderValueOrBlank rendered) filterName)

/-- Concrete task whose single assignee has first name "A", last name "B". -/
def taskAB : MyTask := ⟨some [⟨⟨"A", "B"⟩⟩]⟩

/-- Concrete task whose single assignee has first name "C", last name "D". -/
def taskCD : MyTask := ⟨some [⟨⟨"C", "D"⟩⟩]⟩

/-- C1 counterexample: for the task list `[taskAB, taskCD]` the derived
options are exactly `["A B", "C D"]`, so the selection `["A B", "C D"]`
covers all known assignee options, yet the row `taskAB` does not pass the
filter: the guard is `filterValue.length > assigneeOptions.length` (strict),
so a selection equal to the full option set falls through to the
every-name-is-a-substring check, which fails. -/
theorem select_all_equal_set_does_not_pass_all_rows :
    assigneeOptions [taskAB, taskCD] = ["A B", "C D"] ∧
    (∀ o ∈ assigneeOptions [taskAB, taskCD], o ∈ (["A B", "C D"] : List String)) ∧
    assignedFilterFn (assigneeOptions [taskAB, taskCD]) (assignedAccessor taskAB)
      ["A B", "C D"] = false := by
  decide

/-- C1 (amended): an empty assignee filter selection, or one with strictly
more entries than there are derived assignee options (the case produced by
the select-all entry of the filter widget), passes every row. -/
theorem empty_or_oversized_selection_passes_all_rows
    (tasks : List MyTask) (sel : List String) (row : MyTask)
    (h : sel = [] ∨ (assigneeOptions tasks).length < sel.length) :
    assignedFilterFn (assigneeOptions tasks) (assignedAccessor row) sel = true := by
  rcases h with h | h
  · simp [assignedFilterFn, h]
  · rw [assignedFilterFn, if_pos (Or.inr h)]

/-- Witness for the amended C1 at a concrete input. -/
theorem empty_or_oversized_selection_passes_all_rows_witness :
    assignedFilterFn (assigneeOptions [taskAB]) (assignedAccessor taskAB) [] = true :=
  empty_or_oversized_selection_passes_all_rows [taskAB] [] taskAB (Or.inl rfl)

/-- C7 counterexample: for the task list `[taskAB]` the derived options are
`["A B"]`; the selection `["X", "Y"]` is non-empty and does not cover the
known options, yet the row `taskAB` passes the filter even though its
rendered assignee string contains neither selected name: the guard
`filterValue.length > assigneeOptions.length` (2 > 1) short-circuits to
true regardless of coverage. -/
theorem oversized_noncovering_selection_passes_filtered_row :
    ¬ ((["X", "Y"] : List String) = []) ∧
    ¬ (∀ o ∈ assigneeOptions [taskAB], o ∈ (["X", "Y"] : List String)) ∧
    assignedFilterFn (assigneeOptions [taskAB]) (assignedAccessor taskAB)
      ["X", "Y"] = true ∧
    (["X", "Y"] : List String).all
      (fun n => strIncludes (renderValueOrBlank (assignedAccessor taskAB)) n) = false := by
  decide

/-- C7 (amended): for every selection that is non-empty and has at most as
many entries as the derived assignee options, a row passes the assignee
filter iff the rendered assignee string (with the blank-option sentinel
substituted when it is falsy) contains every selected name as a substring. -/
theorem bounded_selection_filters_by_substring_conjunction
    (opts : List String) (rendered : Option String) (sel : List String)
    (h1 : sel ≠ []) (h2 : sel.length ≤ opts.length) :
    (assignedFilterFn opts rendered sel = true ↔
      sel.all (fun n => strIncludes (renderValueOrBlank rendered) n) = true) := by
  rw [assignedFilterFn, if_neg]
  rintro (h | h)
  · exact h1 (List.length_eq_zero.mp h)
  · exact absurd h (not_lt.mpr h2)

/-- Witness for the amended C7 at a concrete input: a single selected name
and a row whose rendered string contains it. -/
theorem bounded_selection_filters_by_substring_conjunction_witness :
    (assignedFilterFn ["A B"] (some "A B") ["A B"] = true ↔
      (["A B"] : List String).all
        (fun n => strIncludes (renderValueOrBlank (some "A B")) n) = true) :=
  bounded_selection_filters_by_substring_conjunction ["A B"] (some "A B") ["A B"]
    (by decide) (by decide)

/-- C3 counterexample: a task whose `assignees` field is a present-but-empty
array has no assignees, yet the derived option list does not contain the
blank-option sentinel (it is empty): `task.assignees || [""]` keeps the
empty array because `[]` is truthy in JS, so nothing is substituted. -/
theorem empty_assignee_array_yields_no_blank_option :
    (MyTask.mk (some [])).assignees = some ([] : List TaskAssignee) ∧
    assigneeOptions [MyTask.mk (some [])] = [] ∧
    BLANK_OPTION ∉ assigneeOptions [MyTask.mk (some [])] := by
  decide

/-- C3 (amended): the derived assignee option set contains each distinct
full-name string occurring among the tasks' assignees exactly once (the list
has no duplicates), and contains the blank-option sentinel exactly when some
task's `assignees` field is `null`/`undefined` (`none`); a task with a
present-but-empty assignee array contributes no option at all. -/
theorem assignee_options_characterization (tasks : List MyTask) :
    (assigneeOptions tasks).Nodup ∧
    (∀ s : String, s ∈ assigneeOptions tasks ↔
      ((∃ t ∈ tasks, ∃ l, t.assignees = some l ∧ ∃ a ∈ l, fullName a.assignee = s) ∨
       (s = BLANK_OPTION ∧ ∃ t ∈ tasks, t.assignees = none))) := by
  constructor
  · exact nodup_dedupFirstSeen _ _
  · intro s
    rw [assigneeOptions, mem_dedupFirstSeen]
    simp only [List.not_mem_nil, not_false_iff, and_true, List.mem_map,
      List.mem_flatten]
    constructor
    · rintro ⟨a, ⟨inner, ⟨t, ht, rfl⟩, ha⟩, hg⟩
      cases hassign : t.assignees with
      | some l =>
        rw [hassign] at ha
        rcases List.mem_map.mp ha with ⟨a0, ha0, rfl⟩
        exact Or.inl ⟨t, ht, l, hassign, a0, ha0, hg⟩
      | none =>
        rw [hassign] at ha
        rcases List.mem_singleton.mp ha with rfl
        exact Or.inr ⟨hg.symm, t, ht, hassign⟩
    · rintro (⟨t, ht, l, hassign, a, ha, hfn⟩ | ⟨rfl, t, ht, hassign⟩)
      · refine ⟨some a, ⟨l.map (fun a => (some a : Option TaskAssignee)),
          ⟨t, ht, ?_⟩, List.mem_map_of_mem _ ha⟩, hfn⟩
        rw [hassign]
      · refine ⟨none, ⟨[(none : Option TaskAssignee)], ⟨t, ht, ?_⟩,
          List.mem_singleton_self _⟩, rfl⟩
        rw [hassign]

/-- Model of a `Staff` directory entry, spec: "directory entry with identity
fields" (the `models/staff` module is not under `src/`). -/
structure Staff : Type where
  name : String
deriving DecidableEq

/-- Model of the `{status, data}` pair returned by the collaborating backend
services. -/
structure ServiceResponse (α : Type) : Type where
  status : Nat
  data : α
deriving DecidableEq

/-- Model of the generic error message constant `COMMON_ERROR_MESSAGE`
(defined in `constants/application-constant`, not under `src/`). -/
def COMMON_ERROR_MESSAGE : String := "Oops something went wrong, please try again later"

/-- Component-local view state and the context/notification surface touched
by the two fetch handlers: the task list, the staff list, the local
`loading` flag (initialised to `true`), the `MasterContext` loading flag
`ctx.loading`, and the list of notifications shown so far. -/
structure ComponentState : Type where
  myTasks : List MyTask
  staffs : List Staff
  loading : Bool
  ctxLoading : Bool
  notifications : List String
deriving DecidableEq

/-- Embedding of `getMyTasks` (lines 74-88): when the service call resolves,
replace `myTasks` iff `status === 200` and touch nothing else; when it
throws, run `setLoading(false)` on the local flag and show no
notification. -/
def getMyTasksStep (res : Except Unit (ServiceResponse (List MyTask)))
    (st : ComponentState) : ComponentState :=
  match res with
  | .ok r => if r.status = 200 then { st with myTasks := r.data } else st
  | .error _ => { st with loading := false }

/-- Embedding of `getStaffs` (lines 340-351): when the service call resolves,
replace `staffs` iff `status === 200` and touch nothing else; when it
throws, call `showNotification(COMMON_ERROR_MESSAGE, ...)` once. -/
def getStaffsStep (res : Except Unit (ServiceResponse (List Staff)))
    (st : ComponentState) : ComponentState :=
  match res with
  | .ok r => if r.status = 200 then { st with staffs := r.data } else st
  | .error _ => { st with notifications := st.notifications ++ [COMMON_ERROR_MESSAGE] }

/-- Embedding of the loading indicator the table actually shows (lines
386-389): `state={{ isLoading: ctx.loading }}` — the `MasterContext` flag,
not the component-local `loading` state. -/
def tableIsLoading (st : ComponentState) : Bool := st.ctxLoading

/-- C4: when the staff fetch throws, exactly one generic error notification
is appended and the staff list is unchanged; when it resolves with a status
other than 200, no notification is shown and the staff list is also
unchanged. -/
theorem staff_fetch_error_notifies_once_and_preserves_staffs
    (st : ComponentState) (r : ServiceResponse (List Staff)) (hr : r.status ≠ 200) :
    ((getStaffsStep (.error ()) st).notifications
        = st.notifications ++ [COMMON_ERROR_MESSAGE] ∧
     (getStaffsStep (.error ()) st).staffs = st.staffs) ∧
    ((getStaffsStep (.ok r) st).notifications = st.notifications ∧
     (getStaffsStep (.ok r) st).staffs = st.staffs) := by
  refine ⟨⟨rfl, rfl⟩, ?_, ?_⟩
  · simp [getStaffsStep, hr]
  · simp [getStaffsStep, hr]

/-- Example state used to instantiate the stateful theorems: empty lists,
both loading flags raised, no notifications shown yet. -/
def stExample : ComponentState := ⟨[], [], true, true, []⟩

/-- Witness for C4 at a concrete input (a thrown fetch and a 404 response). -/
theorem staff_fetch_error_notifies_once_and_preserves_staffs_witness :
    ((getStaffsStep (.error ()) stExample).notifications
        = stExample.notifications ++ [COMMON_ERROR_MESSAGE] ∧
     (getStaffsStep (.error ()) stExample).staffs = stExample.staffs) ∧
    ((getStaffsStep (.ok ⟨404, []⟩) stExample).notifications
        = stExample.notifications ∧
     (getStaffsStep (.ok ⟨404, []⟩) stExample).staffs = stExample.staffs) :=
  staff_fetch_error_notifies_once_and_preserves_staffs stExample ⟨404, []⟩ (by decide)

/-- C5 counterexample: after a thrown task fetch, the loading indicator the
table shows (`ctx.loading`) is still raised — the `catch` clears only the
component-local `loading` flag, which is never passed to the table. -/
theorem task_fetch_error_leaves_table_loading :
    ¬ (tableIsLoading (getMyTasksStep (.error ()) stExample) = false) := by
  decide

/-- C5 (amended): when the task fetch throws, no notification is shown, the
component-local `loading` flag (not the one the table shows) is cleared, and
the task list is unchanged; the table's loading indicator `ctx.loading` is
unaffected. -/
theorem task_fetch_error_silent_clears_local_flag_only (st : ComponentState) :
    (getMyTasksStep (.error ()) st).notifications = st.notifications ∧
    (getMyTasksStep (.error ()) st).loading = false ∧
    (getMyTasksStep (.error ()) st).myTasks = st.myTasks ∧
    tableIsLoading (getMyTasksStep (.error ()) st) = tableIsLoading st :=
  ⟨rfl, rfl, rfl, rfl⟩

/-- C6: for every resolved fetch response, the task state (resp. staff
state) is replaced by the response data iff the status equals 200, and the
whole component state is left unchanged otherwise. -/
theorem state_replaced_iff_status_200
    (st : ComponentState) (rt : ServiceResponse (List MyTask))
    (rs : ServiceResponse (List Staff)) :
    getMyTasksStep (.ok rt) st
        = (if rt.status = 200 then { st with myTasks := rt.data } else st) ∧
    getStaffsStep (.ok rs) st
        = (if rs.status = 200 then { st with staffs := rs.data } else st) :=
  ⟨rfl, rfl⟩

/-- Model of the three-valued task status enum `EVENT_STATUS` of
`models/taskEvent` (not under `src/`; values follow the spec's "not-started,
in-progress, completed"). -/
inductive EVENT_STATUS : Type
  | NOT_STARTED
  | INPROGRESS
  | COMPLETED
deriving DecidableEq

/-- Model of one entry of the `statusOptions` lookup table: a status value
together with its human-readable label. -/
structure StatusOption : Type where
  value : EVENT_STATUS
  label : String
deriving DecidableEq

/-- Model of `statusOptions` of `models/taskEvent` (not under `src/`), the
fixed lookup table from status codes to human-readable labels described by
the spec; the "Not Started" and "In Progress" labels are corroborated by the
default filter values at lines 52-55 of the source. -/
def statusOptions : List StatusOption :=
  [⟨.NOT_STARTED, "Not Started"⟩, ⟨.INPROGRESS, "In Progress"⟩, ⟨.COMPLETED, "Completed"⟩]

/-- The three icon components the status cell can render. -/
inductive StatusIcon : Type
  | notStartedIcon
  | inProgressIcon
  | completedIcon
deriving DecidableEq

/-- Embedding of the icon chosen by the `Switch`/`Case` chain of the status
cell (lines 236-246): the first `Case` whose condition holds renders, and
each condition is an exact equality test against one enum value. -/
def statusCellIcon (value : EVENT_STATUS) : Option StatusIcon :=
  if value = .NOT_STARTED then some .notStartedIcon
  else if value = .INPROGRESS then some .inProgressIcon
  else if value = .COMPLETED then some .completedIcon
  else none

/-- Embedding of the label of the status cell (lines 247-253):
`statusOptions.filter((o) => o.value === value)[0]?.label`. -/
def statusCellLabel (value : EVENT_STATUS) : Option String :=
  ((statusOptions.filter (fun o => o.value == value)).head?).map (fun o => o.label)

/-- C8: for a task whose status is the in-progress enum value, the status
cell renders the in-progress icon together with the label configured for
that status, and renders neither the not-started icon nor the completed
icon. -/
theorem in_progress_status_cell_renders_in_progress_icon_and_label :
    statusCellIcon EVENT_STATUS.INPROGRESS = some StatusIcon.inProgressIcon ∧
    statusCellLabel EVENT_STATUS.INPROGRESS = some "In Progress" ∧
    statusCellIcon EVENT_STATUS.INPROGRESS ≠ some StatusIcon.notStartedIcon ∧
    statusCellIcon EVENT_STATUS.INPROGRESS ≠ some StatusIcon.completedIcon := by
  decide

/-- Model of one `{id, value}` column-filter entry. -/
structure ColumnFilter : Type where
  id : String
  value : List String
deriving DecidableEq

/-- Model of the current user's identity fields as read from
`state.user.userDetail`. -/
structure UserDetail : Type where
  firstName : String
  lastName : String
deriving DecidableEq

/-- Embedding of the default passed to `useCachedState` for the column
filters (lines 49-61): the statuses "In Progress" and "Not Started", and the
assignee value `user.lastName + ", " + user.firstName`. -/
def defaultColumnFilters (user : UserDetail) : List ColumnFilter :=
  [⟨"status", ["In Progress", "Not Started"]⟩,
   ⟨"assigned", [user.lastName ++ ", " ++ user.firstName]⟩]

/-- Model of `useCachedState` rehydration (the `hooks/useCachedFilters`
module is not under `src/`; the spec says the filter state is "persisted
externally (cache) and rehydrated on load" with the given default): the
cached value when present, otherwise the default. -/
def initialColumnFilters (cached : Option (List ColumnFilter)) (user : UserDetail) :
    List ColumnFilter :=
  cached.getD (defaultColumnFilters user)

/-- Concrete current user with first name "John" and last name "Doe". -/
def johnDoe : UserDetail := ⟨"John", "Doe"⟩

/-- Concrete task assigned to John Doe, the current user. -/
def johnDoeTask : MyTask := ⟨some [⟨⟨"John", "Doe"⟩⟩]⟩

/-- C9: with no cached state, the initial column filters pre-select the
"In Progress"/"Not Started" statuses and the current user's name — but in
`"lastName, firstName"` format, while the assigned column renders
`"first_name last_name"`; consequently the default assignee filter value
`"Doe, John"` is not a substring of the rendered value `"John Doe"`, and the
current user's own task fails the default filter instead of being
selected. -/
theorem default_assigned_filter_excludes_own_task :
    initialColumnFilters none johnDoe
        = [⟨"status", ["In Progress", "Not Started"]⟩, ⟨"assigned", ["Doe, John"]⟩] ∧
    assignedAccessor johnDoeTask = some "John Doe" ∧
    assigneeOptions [johnDoeTask] = ["John Doe"] ∧
    assignedFilterFn (assigneeOptions [johnDoeTask]) (assignedAccessor johnDoeTask)
      ["Doe, John"] = false := by
  decide

/-- Embedding of `handleCacheFilters` (lines 356-361): `if (!filters)
return;` leaves the cached state alone, otherwise `setColumnFilters(filters)`
replaces it.  The resulting cached column-filter state is returned. -/
def handleCacheFilters (filters : Option (List ColumnFilter))
    (cached : List ColumnFilter) : List ColumnFilter :=
  match filters with
  | none => cached
  | some fs => fs

/-- C10: when the filter argument is absent the cached column-filter state is
left unchanged; the cache is written (replaced by the provided list) only
when a filter list is actually provided. -/
theorem cache_written_only_when_filters_provided
    (cached : List ColumnFilter) (fs : List ColumnFilter) :
    handleCacheFilters none cached = cached ∧
    handleCacheFilters (some fs) cached = fs :=
  ⟨rfl, rfl⟩
